import Mathlib

/-!
Shallow embedding of the forecasting core of the crypto-vs-stocks dashboard:
the feature columns added by `data_loader.clean_data`, the metric calculator,
the ARIMA and LSTM forecasters with their naive straight-line fallback
(`model_utils.ModelTrainer`), the per-asset orchestrator, the batch comparator
with its winner labelling (`app.compare`), and the forecast CSV export route
(`app.download_forecast`).

Machine floats are modelled as exact rationals.  The external numerical
libraries (statsmodels, pmdarima, tensorflow) enter through abstract oracles
recording exactly which data each library call receives, and library square
roots through an explicit function argument, so every definition stays
executable.
-/

namespace Forecast

/-- Python floats, modelled as exact rationals. -/
abbrev Val := Rat

/-- Python `round` to an integer: round half to even. -/
def roundHalfEven (x : Val) : Int :=
  let f : Int := Rat.floor x
  let r : Val := x - (f : Val)
  if r < 1/2 then f
  else if 1/2 < r then f + 1
  else if f % 2 = 0 then f else f + 1

/-- Python `round(x, 2)` as used for metric reporting. -/
def round2 (x : Val) : Val := (roundHalfEven (x * 100) : Val) / 100

/-- `np.mean` of a list; the code only applies it to nonempty data. -/
def mean (l : List Val) : Val := l.sum / (l.length : Val)

/-- Metric triple returned by `calculate_metrics`; `mape` is `none` when the
division by a zero actual value makes the numpy result non-finite (inf/NaN). -/
structure Metrics where
  mae : Val
  rmse : Val
  mape : Option Val
deriving DecidableEq

/-- The all-zero metric dictionary built on the fallback path. -/
def fallback_metrics : Metrics := ⟨0, 0, some 0⟩

section Core

variable (sqrtFn : Val → Val)

/-- `ModelTrainer.calculate_metrics` (model_utils.py lines 43-53): MAE, RMSE and
MAPE over equal-length actual/predicted sequences, each rounded to two decimal
places; the MAPE term divides by the raw actual value with no zero guard, so a
zero actual poisons the mean (modelled as `none`). -/
def calculate_metrics (actual predicted : List Val) : Metrics :=
  let pairs := actual.zip predicted
  let mae := round2 (mean (pairs.map (fun ap => |ap.1 - ap.2|)))
  let rmse := round2 (sqrtFn (mean (pairs.map (fun ap => (ap.1 - ap.2) * (ap.1 - ap.2)))))
  let terms := pairs.map (fun ap => if ap.1 = 0 then none else some (|(ap.1 - ap.2) / ap.1|))
  let mape := if terms.all Option.isSome
              then some (round2 (mean (terms.filterMap id) * 100))
              else none
  ⟨mae, rmse, mape⟩

/-- `np.linspace` over exact rationals (endpoint included, matching numpy:
one point gives the start value, the last point is exactly the stop value). -/
def linspace (a b : Val) (num : Nat) : List Val :=
  if num = 0 then []
  else if num = 1 then [a]
  else (List.range num).map (fun (i : Nat) => a + (b - a) * (i : Val) / (((num - 1 : Nat)) : Val))

/-- Presence flags of the optional modelling libraries (module-level
`HAS_ARIMA`, `HAS_AUTO_ARIMA`, `HAS_LSTM`). -/
structure Env where
  hasArima : Bool
  hasAutoArima : Bool
  hasLSTM : Bool
deriving DecidableEq

/-- An ARIMA (p, d, q) order. -/
abbrev ArimaOrder := Nat × Nat × Nat

/-- Abstract interface to the statsmodels / pmdarima libraries.  `autoOrder`
is the pmdarima stepwise order search, applied to whatever data the code hands
it; `fit` fits an ARIMA of the given order, and may fail (non-convergence,
empty data); `forecastStep m k` is the k-th out-of-sample forecast value of a
fitted model and `predictAt m i` its in-sample prediction at index i. -/
structure ArimaOracle (M : Type) where
  autoOrder : List Val → ArimaOrder
  fit : List Val → ArimaOrder → Except String M
  forecastStep : M → Nat → Val
  predictAt : M → Nat → Val

/-- The `try` block of `ModelTrainer.train_arima` (model_utils.py lines 57-99):
raise if statsmodels is missing; split the closes 80/20; pick the order by
stepwise search on the train split when pmdarima is present, else use the fixed
(5,1,0); fit on the full series; forecast `forecast_steps` ahead; compute the
metrics from in-sample predictions over the holdout index range of that same
full-data fit. -/
def train_arima_try {M : Type} (O : ArimaOracle M) (env : Env)
    (df : List Val) (forecast_steps : Nat) :
    Except String (List Val × Metrics × M) :=
  if env.hasArima = false then .error "statsmodels not installed"
  else
    let data := df
    let train_size := 4 * data.length / 5
    let train_data := data.take train_size
    let order := if env.hasAutoArima then O.autoOrder train_data else (5, 1, 0)
    match O.fit data order with
    | .error e => .error e
    | .ok fitted_model =>
      let forecast := (List.range forecast_steps).map (O.forecastStep fitted_model)
      let test_data := data.drop train_size
      let test_predictions :=
        (List.range (data.length - train_size)).map
          (fun i => O.predictAt fitted_model (train_size + i))
      let metrics := calculate_metrics sqrtFn test_data test_predictions
      .ok (forecast, metrics, fitted_model)

/-- `ModelTrainer.train_arima` (model_utils.py lines 55-107): the try block
above; on any exception, the except handler reads the last close
(`df['Close'].iloc[-1]`, which itself raises IndexError on an empty frame) and
returns the straight-line projection to 105% with all-zero metrics and a null
model handle. -/
def train_arima {M : Type} (O : ArimaOracle M) (env : Env)
    (df : List Val) (forecast_steps : Nat) :
    Except String (List Val × Metrics × Option M) :=
  match train_arima_try sqrtFn O env df forecast_steps with
  | .ok (f, m, mdl) => .ok (f, m, some mdl)
  | .error _ =>
    match df.getLast? with
    | none => .error "IndexError: single positional indexer is out-of-bounds"
    | some last_price =>
      .ok (linspace last_price (last_price * (21/20)) forecast_steps, fallback_metrics, none)

end Core

/-- Fitted state of sklearn's `MinMaxScaler(feature_range=(0, 1))`: the data
minimum and maximum observed by the last `fit`. -/
structure ScalerState where
  dataMin : Val
  dataMax : Val
deriving DecidableEq

/-- Minimum of a list of values (sklearn fit is only reached on nonempty data). -/
def listMin (l : List Val) : Val := l.foldl min (l.headD 0)

/-- Maximum of a list of values. -/
def listMax (l : List Val) : Val := l.foldl max (l.headD 0)

/-- `MinMaxScaler.fit` on a nonempty column: record data minimum and maximum. -/
def scalerFit (data : List Val) : ScalerState := ⟨listMin data, listMax data⟩

/-- The scale divisor, with sklearn's handling of a zero range (divisor 1). -/
def scalerDenom (st : ScalerState) : Val :=
  if st.dataMax - st.dataMin = 0 then 1 else st.dataMax - st.dataMin

/-- `MinMaxScaler.transform` of one value. -/
def scaleVal (st : ScalerState) (x : Val) : Val := (x - st.dataMin) / scalerDenom st

/-- `MinMaxScaler.inverse_transform` of one value. -/
def invScaleVal (st : ScalerState) (x : Val) : Val := x * scalerDenom st + st.dataMin

/-- Abstract interface to the tensorflow/keras model: `trainModel` builds and
fits the stacked-LSTM network on the training windows, `predictOne` runs the
fitted network on one window of normalized values. -/
structure LstmOracle (M : Type) where
  trainModel : List (List Val) → List Val → M
  predictOne : M → List Val → Val

/-- `ModelTrainer.prepare_lstm_data` (model_utils.py lines 109-115): sliding
windows of `lookback` consecutive values, each labelled with the next value. -/
def prepare_lstm_data (data : List Val) (lookback : Nat) :
    List (List Val) × List Val :=
  ((List.range (data.length - lookback)).map (fun k => (data.drop k).take lookback),
   data.drop lookback)

/-- The iterative roll-forward forecast loop of `train_lstm` (model_utils.py
lines 171-178): predict one step, append the prediction to the window, drop the
oldest element, repeat. -/
def rollForecast {M : Type} (O : LstmOracle M) (m : M) :
    List Val → Nat → List Val
  | _, 0 => []
  | window, steps + 1 =>
    let next := O.predictOne m window
    next :: rollForecast O m (window.drop 1 ++ [next]) steps

section CoreLstm

variable (sqrtFn : Val → Val)

/-- The `try` block of `ModelTrainer.train_lstm` (model_utils.py lines 119-182):
raise if tensorflow is missing; refit the shared min-max scaler on the current
closes (raises on an empty column); split 80/20; build train windows from
`scaled[:train_size+lookback]` and holdout windows from `scaled[train_size:]`;
reshaping an empty window array raises IndexError (numpy gives a 1-D empty
array, so `shape[1]` is out of range); otherwise fit the network, compute
metrics on the inverse-transformed holdout predictions, and roll the forecast
forward from the last `lookback` normalized observations.  The incoming scaler
state `st` is overwritten by `fit_transform` before any use. -/
def train_lstm_try {M : Type} (O : LstmOracle M) (env : Env)
    (st : Option ScalerState) (df : List Val) (forecast_steps lookback : Nat) :
    Except String (List Val × Metrics × M) :=
  if env.hasLSTM = false then .error "TensorFlow not installed"
  else if df = [] then .error "ValueError: zero-size array in MinMaxScaler fit"
  else
    let sc := scalerFit df
    let scaled_data := df.map (scaleVal sc)
    let train_size := 4 * scaled_data.length / 5
    let XYtrain := prepare_lstm_data (scaled_data.take (train_size + lookback)) lookback
    let XYtest := prepare_lstm_data (scaled_data.drop train_size) lookback
    if XYtrain.1 = [] then .error "IndexError: tuple index out of range (train reshape)"
    else if XYtest.1 = [] then .error "IndexError: tuple index out of range (test reshape)"
    else
      let model := O.trainModel XYtrain.1 XYtrain.2
      let test_predictions := (XYtest.1.map (O.predictOne model)).map (invScaleVal sc)
      let actual_test := XYtest.2.map (invScaleVal sc)
      let metrics := calculate_metrics sqrtFn actual_test test_predictions
      let last_sequence := scaled_data.drop (scaled_data.length - lookback)
      let forecast := (rollForecast O model last_sequence forecast_steps).map (invScaleVal sc)
      .ok (forecast, metrics, model)

/-- `ModelTrainer.train_lstm` (model_utils.py lines 117-190): the try block
above; any exception lands in the same straight-line fallback as the ARIMA
forecaster (which raises IndexError on an empty frame). -/
def train_lstm {M : Type} (O : LstmOracle M) (env : Env)
    (st : Option ScalerState) (df : List Val) (forecast_steps lookback : Nat) :
    Except String (List Val × Metrics × Option M) :=
  match train_lstm_try sqrtFn O env st df forecast_steps lookback with
  | .ok (f, m, mdl) => .ok (f, m, some mdl)
  | .error _ =>
    match df.getLast? with
    | none => .error "IndexError: single positional indexer is out-of-bounds"
    | some last_price =>
      .ok (linspace last_price (last_price * (21/20)) forecast_steps, fallback_metrics, none)

/-- The scaler state left behind by one `train_lstm` call: `fit_transform`
refits it from the current closes whenever it is reached. -/
def lstm_scaler_after (env : Env) (st : Option ScalerState) (df : List Val) :
    Option ScalerState :=
  if env.hasLSTM = false then st
  else if df = [] then st
  else some (scalerFit df)

/-- Result bundle of `ModelTrainer.train_and_forecast` (model_utils.py
lines 206-216). -/
structure ForecastBundle (MA ML : Type) where
  asset : String
  arima_forecast : List Val
  arima_metrics : Metrics
  lstm_forecast : List Val
  lstm_metrics : Metrics
  arima_model : Option MA
  lstm_model : Option ML
deriving DecidableEq

/-- `ModelTrainer.train_and_forecast` (model_utils.py lines 192-218): run the
ARIMA forecaster, then the LSTM forecaster, and bundle both results.  There is
no input validation of any kind at this boundary; an exception escaping either
forecaster propagates to the caller. -/
def train_and_forecast {MA ML : Type} (AO : ArimaOracle MA) (LO : LstmOracle ML)
    (env : Env) (st : Option ScalerState) (df : List Val) (asset_name : String)
    (forecast_steps : Nat) : Except String (ForecastBundle MA ML) :=
  match train_arima sqrtFn AO env df forecast_steps with
  | .error e => .error e
  | .ok (af, am, amod) =>
    match train_lstm sqrtFn LO env st df forecast_steps 60 with
    | .error e => .error e
    | .ok (lf, lm, lmod) => .ok ⟨asset_name, af, am, lf, lm, amod, lmod⟩

/-- One row of the batch comparison metrics table (app.py `compare`). -/
structure MetricsRow where
  asset : String
  arima_mae : Val
  arima_rmse : Val
  arima_mape : Option Val
  lstm_mae : Val
  lstm_rmse : Val
  lstm_mape : Option Val
deriving DecidableEq

/-- `ModelTrainer.batch_train_all_assets` (model_utils.py lines 220-237): run
the orchestrator for every asset in iteration order with the default horizon 30
and tabulate the six metric columns. -/
def batch_train_all_assets {MA ML : Type} (AO : ArimaOracle MA) (LO : LstmOracle ML)
    (env : Env) (st : Option ScalerState) (data_dict : List (String × List Val)) :
    Except String (List MetricsRow) :=
  data_dict.mapM (fun p =>
    (train_and_forecast sqrtFn AO LO env st p.2 p.1 30).map (fun b =>
      ⟨p.1, b.arima_metrics.mae, b.arima_metrics.rmse, b.arima_metrics.mape,
            b.lstm_metrics.mae, b.lstm_metrics.rmse, b.lstm_metrics.mape⟩))

end CoreLstm

/-- The winner lambda of the `compare` route (app.py lines 216-219):
`'ARIMA' if row['ARIMA_MAE'] < row['LSTM_MAE'] else 'LSTM'`. -/
def best_model_label (r : MetricsRow) : String :=
  if r.arima_mae < r.lstm_mae then "ARIMA" else "LSTM"

/-- The `Best_Model` column assignment of the `compare` route: label every row
of the batch metrics table with its winning model. -/
def compare_best_model (rows : List MetricsRow) : List (MetricsRow × String) :=
  rows.map (fun r => (r, best_model_label r))

/-- A calendar date, as produced by `pd.to_datetime` / `pd.date_range`. -/
structure Date where
  year : Nat
  month : Nat
  day : Nat
deriving DecidableEq

/-- Gregorian leap-year rule. -/
def isLeapYear (y : Nat) : Bool :=
  (y % 4 == 0 && y % 100 != 0) || (y % 400 == 0)

/-- Number of days in a Gregorian month. -/
def daysInMonth (y m : Nat) : Nat :=
  if m = 2 then (if isLeapYear y then 29 else 28)
  else if m = 4 ∨ m = 6 ∨ m = 9 ∨ m = 11 then 30
  else 31

/-- The next calendar day. -/
def nextDay (d : Date) : Date :=
  if d.day < daysInMonth d.year d.month then ⟨d.year, d.month, d.day + 1⟩
  else if d.month < 12 then ⟨d.year, d.month + 1, 1⟩
  else ⟨d.year + 1, 1, 1⟩

/-- Add a number of calendar days to a date. -/
def addDays (d : Date) : Nat → Date
  | 0 => d
  | n + 1 => nextDay (addDays d n)

/-- `pd.date_range(start=d, periods=n, freq='D')`: `n` consecutive calendar
days beginning with `d` itself. -/
def date_range (d : Date) (periods : Nat) : List Date :=
  (List.range periods).map (addDays d)

/-- A loaded asset frame as the routes see it: aligned date and close columns. -/
structure PriceFrame where
  dates : List Date
  closes : List Val
deriving DecidableEq

section Routes

variable (sqrtFn : Val → Val)

/-- The `download_forecast` route (app.py lines 246-278): reject an unknown
asset with a named error; otherwise train both models with horizon 30, build
`pd.date_range(start=last_date, periods=31, freq='D')[1:]`, and pair each of
the 30 dates with the two forecast values (one CSV row per forecast day). -/
def download_forecast {MA ML : Type} (AO : ArimaOracle MA) (LO : LstmOracle ML)
    (env : Env) (st : Option ScalerState) (all_data : List (String × PriceFrame))
    (asset : String) : Except String (List (Date × Val × Val)) :=
  match all_data.lookup asset with
  | none => .error "Invalid asset"
  | some df =>
    match train_and_forecast sqrtFn AO LO env st df.closes asset 30 with
    | .error e => .error e
    | .ok results =>
      match df.dates.getLast? with
      | none => .error "IndexError: single positional indexer is out-of-bounds"
      | some last_date =>
        let forecast_dates := (date_range last_date 31).drop 1
        .ok (forecast_dates.zip (results.arima_forecast.zip results.lstm_forecast))

end Routes

/-- Definedness of a derived column at a row index: the index is in range and
the cell is not NaN. -/
def definedAt (col : List (Option Val)) (i : Nat) : Bool :=
  ((col.get? i).getD none).isSome

/-- `df['Close'].pct_change()` as computed in `DataLoader.clean_data`
(data_loader.py line 56): NaN at index 0, and at later indices the relative
change from the previous close — non-finite (modelled `none`) when the
previous close is zero. -/
def daily_return (closes : List Val) : List (Option Val) :=
  (List.range closes.length).map (fun i =>
    match i with
    | 0 => none
    | j + 1 =>
      match closes.get? j, closes.get? (j + 1) with
      | some prev, some cur => if prev = 0 then none else some ((cur - prev) / prev)
      | _, _ => none)

/-- A pandas rolling window of size `w` ending at index `i` over a column with
possible NaN entries: defined only when the full window fits and every entry in
the window is defined (pandas default `min_periods = window`). -/
def rollingCell (w : Nat) (f : List Val → Val) (xs : List (Option Val)) (i : Nat) :
    Option Val :=
  if i + 1 < w then none
  else
    let idxs := (List.range w).map (fun k => i + 1 - w + k)
    if idxs.all (fun j => ((xs.get? j).getD none).isSome)
    then some (f (idxs.filterMap (fun j => (xs.get? j).getD none)))
    else none

/-- A pandas `rolling(window=w)` aggregate over a whole column. -/
def rollingApply (w : Nat) (f : List Val → Val) (xs : List (Option Val)) :
    List (Option Val) :=
  (List.range xs.length).map (rollingCell w f xs)

/-- Sample variance (pandas `std` uses ddof = 1); its square root is the
rolling standard deviation. -/
def sampleVar (l : List Val) : Val :=
  (l.map (fun x => (x - mean l) * (x - mean l))).sum / ((l.length - 1 : Nat) : Val)

/-- `df['Daily Return'].rolling(window=30).std()` from `DataLoader.clean_data`
(data_loader.py line 60), with the library square root abstract. -/
def volatility_30d (sqrtFn : Val → Val) (closes : List Val) : List (Option Val) :=
  rollingApply 30 (fun l => sqrtFn (sampleVar l)) (daily_return closes)

/-- `df['Close'].rolling(window=50).mean()` from `DataLoader.clean_data`
(data_loader.py line 64); the close column has no NaN after ffill/bfill. -/
def ma_50 (closes : List Val) : List (Option Val) :=
  rollingApply 50 mean (closes.map some)

/-- Environment with no optional modelling library installed. -/
def envNone : Env := ⟨false, false, false⟩

/-- Environment with statsmodels, pmdarima and tensorflow all installed. -/
def envAll : Env := ⟨true, true, true⟩

/-- A concrete statsmodels/pmdarima instance for witnesses: the stepwise search
returns order (1, 1, 1), fitting fails on empty data (as the library does) and
succeeds otherwise, and the fitted model predicts zero everywhere. -/
def unitArimaOracle : ArimaOracle Unit where
  autoOrder := fun _ => (1, 1, 1)
  fit := fun d _ => if d.isEmpty then .error "ValueError: zero-size array to reduction operation" else .ok ()
  forecastStep := fun _ _ => 0
  predictAt := fun _ _ => 0

/-- A concrete tensorflow instance for witnesses: the fitted network predicts
zero on every window. -/
def unitLstmOracle : LstmOracle Unit where
  trainModel := fun _ _ => ()
  predictOne := fun _ _ => 0

/-- A concrete stand-in for the library square root in witnesses (the claims
never depend on its value). -/
def sqrtZero : Val → Val := fun _ => 0

/-- The metrics row produced for an asset whose two forecasters both fell back. -/
def btcZeroRow : MetricsRow := ⟨"BTC", 0, 0, some 0, 0, 0, some 0⟩

/-! ### Helper lemmas -/

theorem linspace_length (a b : Val) (num : Nat) : (linspace a b num).length = num := by
  by_cases h0 : num = 0
  · simp [linspace, h0]
  · by_cases h1 : num = 1
    · simp [linspace, h0, h1]
    · simp [linspace, h0, h1]

theorem linspace_head? (a b : Val) (num : Nat) (h : 1 ≤ num) :
    (linspace a b num).head? = some a := by
  by_cases h1 : num = 1
  · simp [linspace, h1]
  · obtain ⟨k, rfl⟩ : ∃ k, num = k + 1 := ⟨num - 1, by omega⟩
    simp only [linspace, Nat.succ_ne_zero, if_false, h1, if_neg h1, List.range_succ_eq_map]
    simp

theorem linspace_getLast? (a b : Val) (num : Nat) (h : 2 ≤ num) :
    (linspace a b num).getLast? = some b := by
  obtain ⟨k, rfl⟩ : ∃ k, num = k + 2 := ⟨num - 2, by omega⟩
  rw [linspace, if_neg (by omega : ¬ k + 2 = 0), if_neg (by omega : ¬ k + 2 = 1),
    List.range_succ, List.map_append, List.getLast?_append]
  simp only [List.map_cons, List.map_nil, List.getLast?_singleton, Option.or_some]
  have h21 : (k + 2 - 1 : Nat) = k + 1 := by omega
  have hk : ((k + 1 : Nat) : Val) ≠ 0 := by exact_mod_cast Nat.succ_ne_zero k
  rw [h21, mul_div_assoc, div_self hk]
  norm_num

theorem linspace_chain (a b : Val) (num : Nat) (hab : a ≤ b) :
    List.Chain' (fun x y => x ≤ y) (linspace a b num) := by
  by_cases h0 : num = 0
  · simp [linspace, h0]
  · by_cases h1 : num = 1
    · simp [linspace, h1]
    · rw [linspace, if_neg h0, if_neg h1, List.chain'_map]
      obtain ⟨k, rfl⟩ : ∃ k, num = k + 1 := ⟨num - 1, by omega⟩
      rw [List.chain'_range_succ]
      intro m _
      have h11 : (k + 1 - 1 : Nat) = k := by omega
      have hden : (0 : Val) < ((k : Nat) : Val) := by
        have : (1 : Nat) ≤ k := by omega
        exact_mod_cast Nat.lt_of_lt_of_le Nat.zero_lt_one this
      have hnum : (b - a) * ((m : Nat) : Val) ≤ (b - a) * (((m + 1 : Nat)) : Val) := by
        apply mul_le_mul_of_nonneg_left _ (by linarith)
        exact_mod_cast Nat.le_succ m
      rw [h11]
      exact add_le_add_left ((div_le_div_right hden).mpr (by exact_mod_cast hnum)) a

theorem rollForecast_length {M : Type} (O : LstmOracle M) (m : M) :
    ∀ (window : List Val) (steps : Nat), (rollForecast O m window steps).length = steps
  | _, 0 => rfl
  | window, steps + 1 => by
    simp only [rollForecast, List.length_cons]
    rw [rollForecast_length O m _ steps]

theorem getLast?_eq_some_of_ne_nil {l : List Val} (h : l ≠ []) :
    ∃ a, l.getLast? = some a :=
  Option.isSome_iff_exists.1 (List.getLast?_isSome.2 h)

theorem range_map_get? {α : Type} (f : Nat → α) (n i : Nat) :
    ((List.range n).map f).get? i = if i < n then some (f i) else none := by
  by_cases h : i < n
  · rw [List.get?_map, List.get?_range h, if_pos h, Option.map_some']
  · rw [List.get?_map, List.get?_eq_none.2 (by simpa [List.length_range] using h),
      Option.map_none', if_neg h]

theorem exists_mem_zip_of_mem_left {a : Val} :
    ∀ (l₁ l₂ : List Val), a ∈ l₁ → l₁.length ≤ l₂.length →
      ∃ b, (a, b) ∈ l₁.zip l₂
  | [], _, h, _ => absurd h (List.not_mem_nil a)
  | x :: t, [], _, hl => by simp at hl
  | x :: t, y :: t₂, h, hl => by
    rcases List.mem_cons.1 h with rfl | h'
    · exact ⟨y, List.mem_cons_self _ _⟩
    · obtain ⟨b, hb⟩ := exists_mem_zip_of_mem_left t t₂ h' (by simpa using hl)
      exact ⟨b, List.mem_cons_of_mem _ hb⟩

theorem train_arima_try_ok_length {M : Type} {sqrtFn : Val → Val} {O : ArimaOracle M}
    {env : Env} {df : List Val} {fs : Nat} {f : List Val} {mt : Metrics} {m : M}
    (hok : train_arima_try sqrtFn O env df fs = .ok (f, mt, m)) : f.length = fs := by
  simp only [train_arima_try] at hok
  split at hok
  · exact Except.noConfusion hok
  · split at hok <;>
      first
      | exact Except.noConfusion hok
      | (simp only [Except.ok.injEq, Prod.mk.injEq] at hok
         obtain ⟨hf, -, -⟩ := hok
         rw [← hf, List.length_map, List.length_range])

theorem train_arima_ok_of_ne_nil {M : Type} (sqrtFn : Val → Val) (O : ArimaOracle M)
    (env : Env) {df : List Val} (fs : Nat) (hne : df ≠ []) :
    ∃ f mt mdl, train_arima sqrtFn O env df fs = .ok (f, mt, mdl) ∧ f.length = fs := by
  unfold train_arima
  cases htry : train_arima_try sqrtFn O env df fs with
  | ok v =>
    obtain ⟨f, mt, m⟩ := v
    exact ⟨f, mt, some m, rfl, train_arima_try_ok_length htry⟩
  | error e =>
    obtain ⟨lp, hlp⟩ := getLast?_eq_some_of_ne_nil hne
    rw [hlp]
    exact ⟨_, _, _, rfl, linspace_length _ _ _⟩

theorem train_lstm_try_ok_length {M : Type} {sqrtFn : Val → Val} {O : LstmOracle M}
    {env : Env} {st : Option ScalerState} {df : List Val} {fs lb : Nat}
    {f : List Val} {mt : Metrics} {m : M}
    (hok : train_lstm_try sqrtFn O env st df fs lb = .ok (f, mt, m)) : f.length = fs := by
  simp only [train_lstm_try] at hok
  split at hok
  · exact Except.noConfusion hok
  · split at hok
    · exact Except.noConfusion hok
    · split at hok
      · exact Except.noConfusion hok
      · split at hok
        · exact Except.noConfusion hok
        · simp only [Except.ok.injEq, Prod.mk.injEq] at hok
          obtain ⟨hf, -, -⟩ := hok
          rw [← hf, List.length_map, rollForecast_length]

theorem train_lstm_ok_of_ne_nil {M : Type} (sqrtFn : Val → Val) (O : LstmOracle M)
    (env : Env) (st : Option ScalerState) {df : List Val} (fs lb : Nat)
    (hne : df ≠ []) :
    ∃ f mt mdl, train_lstm sqrtFn O env st df fs lb = .ok (f, mt, mdl) ∧ f.length = fs := by
  unfold train_lstm
  cases htry : train_lstm_try sqrtFn O env st df fs lb with
  | ok v =>
    obtain ⟨f, mt, m⟩ := v
    exact ⟨f, mt, some m, rfl, train_lstm_try_ok_length htry⟩
  | error e =>
    obtain ⟨lp, hlp⟩ := getLast?_eq_some_of_ne_nil hne
    rw [hlp]
    exact ⟨_, _, _, rfl, linspace_length _ _ _⟩

theorem train_and_forecast_ok_of_ne_nil {MA ML : Type} (sqrtFn : Val → Val)
    (AO : ArimaOracle MA) (LO : LstmOracle ML) (env : Env) (st : Option ScalerState)
    {df : List Val} (asset : String) (fs : Nat) (hne : df ≠ []) :
    ∃ b : ForecastBundle MA ML,
      train_and_forecast sqrtFn AO LO env st df asset fs = .ok b
      ∧ b.arima_forecast.length = fs ∧ b.lstm_forecast.length = fs := by
  obtain ⟨af, amt, amdl, ha, halen⟩ := train_arima_ok_of_ne_nil sqrtFn AO env fs hne
  obtain ⟨lf, lmt, lmdl, hl, hllen⟩ := train_lstm_ok_of_ne_nil sqrtFn LO env st fs 60 hne
  refine ⟨⟨asset, af, amt, lf, lmt, amdl, lmdl⟩, ?_, halen, hllen⟩
  unfold train_and_forecast
  rw [ha, hl]

theorem addDays_succ_comm (d : Date) (n : Nat) :
    addDays (nextDay d) n = nextDay (addDays d n) := by
  induction n with
  | zero => rfl
  | succ k ih => simp only [addDays, ih]

theorem date_range_succ (d : Date) (n : Nat) :
    date_range d (n + 1) = d :: date_range (nextDay d) n := by
  unfold date_range
  rw [List.range_succ_eq_map, List.map_cons, List.map_map]
  congr 1
  apply List.map_congr_left
  intro k _
  simp only [Function.comp_apply]
  induction k with
  | zero => rfl
  | succ j ih => simp only [addDays, ih, addDays_succ_comm]

theorem date_range_drop_one (d : Date) (n : Nat) :
    (date_range d (n + 1)).drop 1 = date_range (nextDay d) n := by
  rw [date_range_succ, List.drop_one, List.tail_cons]

theorem date_range_length (d : Date) (n : Nat) : (date_range d n).length = n := by
  unfold date_range
  rw [List.length_map, List.length_range]

theorem date_range_head? (d : Date) (n : Nat) (h : 1 ≤ n) :
    (date_range d n).head? = some d := by
  obtain ⟨k, rfl⟩ : ∃ k, n = k + 1 := ⟨n - 1, by omega⟩
  rw [date_range_succ, List.head?_cons]

theorem date_range_chain (d : Date) (n : Nat) :
    List.Chain' (fun a b => b = nextDay a) (date_range d n) := by
  induction n generalizing d with
  | zero => simp [date_range]
  | succ k ih =>
    rw [date_range_succ, List.chain'_cons']
    refine ⟨?_, ih (nextDay d)⟩
    intro y hy
    cases k with
    | zero => simp [date_range] at hy
    | succ j =>
      rw [date_range_head? (nextDay d) (j + 1) (by omega)] at hy
      simp only [Option.mem_def, Option.some.injEq] at hy
      exact hy.symm

theorem daily_return_length (cs : List Val) : (daily_return cs).length = cs.length := by
  unfold daily_return
  rw [List.length_map, List.length_range]

theorem definedAt_out_of_range {col : List (Option Val)} {i : Nat}
    (h : col.length ≤ i) : definedAt col i = false := by
  unfold definedAt
  rw [List.get?_eq_none.2 h]
  rfl

theorem definedAt_daily_return (cs : List Val) (hpos : ∀ c ∈ cs, 0 < c) (i : Nat) :
    definedAt (daily_return cs) i = true ↔ 1 ≤ i ∧ i < cs.length := by
  unfold definedAt daily_return
  rw [range_map_get?]
  by_cases hi : i < cs.length
  · rw [if_pos hi]
    cases i with
    | zero => simp
    | succ j =>
      have hj : j < cs.length := by omega
      obtain ⟨prev, hprev⟩ : ∃ p, cs.get? j = some p := ⟨_, List.get?_eq_get hj⟩
      obtain ⟨cur, hcur⟩ : ∃ p, cs.get? (j + 1) = some p := ⟨_, List.get?_eq_get hi⟩
      have hne : prev ≠ 0 := ne_of_gt (hpos prev (List.get?_mem hprev))
      simp only [hprev, hcur, if_neg hne, Option.getD_some, Option.isSome_some]
      simp [hi]
  · rw [if_neg hi]
    simp only [Option.getD_none, Option.isSome_none]
    constructor
    · intro h; exact absurd h (by simp)
    · intro h; exact absurd h.2 hi

theorem rollingApply_length (w : Nat) (f : List Val → Val) (xs : List (Option Val)) :
    (rollingApply w f xs).length = xs.length := by
  unfold rollingApply
  rw [List.length_map, List.length_range]

theorem definedAt_rollingApply (w : Nat) (f : List Val → Val) (xs : List (Option Val))
    (i : Nat) :
    definedAt (rollingApply w f xs) i = true ↔
      w ≤ i + 1 ∧ i < xs.length ∧ ∀ k, k < w → definedAt xs (i + 1 - w + k) = true := by
  unfold rollingApply rollingCell
  by_cases hi : i < xs.length
  · unfold definedAt
    rw [range_map_get?, if_pos hi]
    by_cases hiw : i + 1 < w
    · rw [if_pos hiw]
      simp only [Option.getD_some, Option.isSome_none]
      constructor
      · intro h; exact absurd h (by simp)
      · intro h; omega
    · rw [if_neg hiw]
      have hall : (((List.range w).map (fun k => i + 1 - w + k)).all
            (fun j => ((xs.get? j).getD none).isSome) = true) ↔
          ∀ k, k < w → definedAt xs (i + 1 - w + k) = true := by
        rw [List.all_map, List.all_eq_true]
        constructor
        · intro h k hk
          exact h k (List.mem_range.2 hk)
        · intro h k hk
          exact h k (List.mem_range.1 hk)
      by_cases hwin : ∀ k, k < w → definedAt xs (i + 1 - w + k) = true
      · rw [if_pos (hall.2 hwin)]
        simp only [Option.getD_some, Option.isSome_some]
        constructor
        · intro _; exact ⟨by omega, hi, hwin⟩
        · intro _; trivial
      · rw [if_neg (fun hc => hwin (hall.1 hc))]
        simp only [Option.getD_some, Option.isSome_none]
        constructor
        · intro h; exact absurd h (by simp)
        · intro h; exact absurd h.2.2 hwin
  · rw [definedAt_out_of_range (by rw [List.length_map, List.length_range]; omega)]
    constructor
    · intro h; exact absurd h (by simp)
    · intro h; exact absurd h.2.1 hi

theorem definedAt_map_some (cs : List Val) (j : Nat) :
    definedAt (cs.map some) j = true ↔ j < cs.length := by
  unfold definedAt
  by_cases hj : j < cs.length
  · obtain ⟨c, hc⟩ : ∃ c, cs.get? j = some c := ⟨_, List.get?_eq_get hj⟩
    rw [List.get?_map, hc]
    simp [hj]
  · rw [List.get?_map, List.get?_eq_none.2 (by omega)]
    simp only [Option.map_none', Option.getD_none, Option.isSome_none]
    constructor
    · intro h; exact absurd h (by simp)
    · intro h; exact absurd h hj

/-! ### Claim theorems -/

/-- C1 (counterexample): in the batch comparison, an asset row whose ARIMA and
LSTM mean-absolute-errors are equal is labelled "LSTM", not "ARIMA": the `<`
check sends ties to the LSTM model, refuting the claimed tie-break. -/
theorem compare_tie_labels_lstm_cex :
    batch_train_all_assets sqrtZero unitArimaOracle unitLstmOracle envNone none
        [("BTC", [10])] = .ok [btcZeroRow]
    ∧ btcZeroRow.arima_mae = btcZeroRow.lstm_mae
    ∧ compare_best_model [btcZeroRow] = [(btcZeroRow, "LSTM")]
    ∧ "LSTM" ≠ "ARIMA" :=
  ⟨rfl, rfl, rfl, by decide⟩

/-- C1 (amended): for every asset row of the batch comparison the winning-model
label is the model with the strictly lower mean-absolute-error, and when the
two MAE values are equal the winner is "LSTM" — ties favor the LSTM model. -/
theorem compare_winner_lower_mae_tie_lstm
    (sqrtFn : Val → Val) {MA ML : Type} (AO : ArimaOracle MA) (LO : LstmOracle ML)
    (env : Env) (st : Option ScalerState) (data_dict : List (String × List Val))
    (rows : List MetricsRow)
    (hbatch : batch_train_all_assets sqrtFn AO LO env st data_dict = .ok rows)
    (r : MetricsRow) (w : String) (hmem : (r, w) ∈ compare_best_model rows) :
    (r.arima_mae < r.lstm_mae → w = "ARIMA")
    ∧ (r.lstm_mae < r.arima_mae → w = "LSTM")
    ∧ (r.arima_mae = r.lstm_mae → w = "LSTM") := by
  obtain ⟨r', hr', heq⟩ := List.mem_map.1 hmem
  injection heq with h1 h2
  subst h1
  subst h2
  unfold best_model_label
  refine ⟨fun h => ?_, fun h => ?_, fun h => ?_⟩
  · rw [if_pos h]
  · rw [if_neg (not_lt_of_gt h)]
  · rw [if_neg (by rw [h]; exact lt_irrefl _)]

/-- C1 (witness): a concrete one-asset batch whose single row is a tie; the
amended theorem applies and labels it "LSTM". -/
theorem compare_winner_lower_mae_tie_lstm_witness :
    batch_train_all_assets sqrtZero unitArimaOracle unitLstmOracle envNone none
        [("BTC", [10])] = .ok [btcZeroRow]
    ∧ (btcZeroRow, "LSTM") ∈ compare_best_model [btcZeroRow]
    ∧ ((btcZeroRow.arima_mae < btcZeroRow.lstm_mae → "LSTM" = "ARIMA")
       ∧ (btcZeroRow.lstm_mae < btcZeroRow.arima_mae → "LSTM" = "LSTM")
       ∧ (btcZeroRow.arima_mae = btcZeroRow.lstm_mae → "LSTM" = "LSTM")) :=
  ⟨rfl, by decide,
   compare_winner_lower_mae_tie_lstm sqrtZero unitArimaOracle unitLstmOracle envNone none
     [("BTC", [10])] [btcZeroRow] rfl btcZeroRow "LSTM" (by decide)⟩

/-- C2 (code evidence): an empty price series is not rejected at the
`train_and_forecast` boundary.  The try block runs and library fitting is
attempted and fails there, after which the except handler itself raises an
unhandled IndexError reading the last close, which propagates to the caller —
there is no named pre-fit rejection at the orchestrator. -/
theorem train_and_forecast_empty_series_unhandled_indexerror :
    train_arima_try sqrtZero unitArimaOracle envAll ([] : List Val) 30
      = .error "ValueError: zero-size array to reduction operation"
    ∧ train_and_forecast sqrtZero unitArimaOracle unitLstmOracle envAll none
        ([] : List Val) "BTC" 30
      = .error "IndexError: single positional indexer is out-of-bounds" :=
  ⟨rfl, rfl⟩

/-- C3: on the genuine path the autoregressive forecaster selects the model
order using only the first floor(0.8 n) values, refits that order on the whole
series, forecasts h steps from the end of the full-data fit, and computes the
reported metrics by comparing the same fit's in-sample predictions over the
index range [floor(0.8 n), n-1] against the true last-20% values. -/
theorem train_arima_order_from_train_prefix_refit_full
    (sqrtFn : Val → Val) {M : Type} (O : ArimaOracle M) (env : Env)
    (df : List Val) (h : Nat) (m : M)
    (ha : env.hasArima = true)
    (hfit : O.fit df (if env.hasAutoArima then O.autoOrder (df.take (4 * df.length / 5))
                      else (5, 1, 0)) = .ok m) :
    train_arima sqrtFn O env df h
      = .ok ((List.range h).map (O.forecastStep m),
             calculate_metrics sqrtFn (df.drop (4 * df.length / 5))
               ((List.range (df.length - 4 * df.length / 5)).map
                 (fun i => O.predictAt m (4 * df.length / 5 + i))),
             some m) := by
  unfold train_arima train_arima_try
  rw [ha]
  simp only [Bool.true_eq_false, if_false]
  rw [hfit]

/-- C3 (witness): the genuine-path decomposition evaluated on a concrete
five-point series with both libraries present. -/
theorem train_arima_order_from_train_prefix_refit_full_witness :
    envAll.hasArima = true
    ∧ unitArimaOracle.fit [1, 2, 3, 4, 5]
        (if envAll.hasAutoArima then
          unitArimaOracle.autoOrder (List.take (4 * List.length [(1 : Val), 2, 3, 4, 5] / 5) [1, 2, 3, 4, 5])
         else (5, 1, 0)) = .ok ()
    ∧ train_arima sqrtZero unitArimaOracle envAll [1, 2, 3, 4, 5] 2
      = .ok ((List.range 2).map (unitArimaOracle.forecastStep ()),
             calculate_metrics sqrtZero
               (List.drop (4 * List.length [(1 : Val), 2, 3, 4, 5] / 5) [1, 2, 3, 4, 5])
               ((List.range (List.length [(1 : Val), 2, 3, 4, 5]
                   - 4 * List.length [(1 : Val), 2, 3, 4, 5] / 5)).map
                 (fun i => unitArimaOracle.predictAt ()
                   (4 * List.length [(1 : Val), 2, 3, 4, 5] / 5 + i))),
             some ()) :=
  ⟨rfl, rfl,
   train_arima_order_from_train_prefix_refit_full sqrtZero unitArimaOracle envAll
     [1, 2, 3, 4, 5] 2 () rfl rfl⟩

/-- C4 (counterexample): on an empty input series neither forecaster returns a
forecast at all — both raise IndexError out of the fallback handler — so the
claim quantified over every input series fails. -/
theorem forecasters_raise_on_empty_series_cex :
    train_arima sqrtZero unitArimaOracle envNone ([] : List Val) 30
      = .error "IndexError: single positional indexer is out-of-bounds"
    ∧ train_lstm sqrtZero unitLstmOracle envAll none ([] : List Val) 30 60
      = .error "IndexError: single positional indexer is out-of-bounds" :=
  ⟨rfl, rfl⟩

/-- C4 (amended): for every nonempty input series and every horizon of at least
one step, both forecasters return a result with exactly `horizon` predicted
values (exact rationals, hence finite), on the genuine-fit path and on the
fallback path alike. -/
theorem forecasters_return_horizon_length_on_nonempty
    (sqrtFn : Val → Val) {MA ML : Type} (AO : ArimaOracle MA) (LO : LstmOracle ML)
    (env : Env) (st : Option ScalerState) (df : List Val) (fs lb : Nat)
    (hne : df ≠ []) (hfs : 1 ≤ fs) (hlb : 1 ≤ lb) :
    (∃ f mt mdl, train_arima sqrtFn AO env df fs = .ok (f, mt, mdl) ∧ f.length = fs)
    ∧ (∃ f mt mdl, train_lstm sqrtFn LO env st df fs lb = .ok (f, mt, mdl)
        ∧ f.length = fs) :=
  ⟨train_arima_ok_of_ne_nil sqrtFn AO env fs hne,
   train_lstm_ok_of_ne_nil sqrtFn LO env st fs lb hne⟩

/-- C4 (witness): a one-point series and horizon three. -/
theorem forecasters_return_horizon_length_on_nonempty_witness :
    ([(10 : Val)] ≠ []) ∧ 1 ≤ 3 ∧ 1 ≤ 60
    ∧ ((∃ f mt mdl, train_arima sqrtZero unitArimaOracle envNone [(10 : Val)] 3
          = .ok (f, mt, mdl) ∧ f.length = 3)
       ∧ (∃ f mt mdl, train_lstm sqrtZero unitLstmOracle envNone none [(10 : Val)] 3 60
          = .ok (f, mt, mdl) ∧ f.length = 3)) :=
  ⟨by decide, by decide, by decide,
   forecasters_return_horizon_length_on_nonempty sqrtZero unitArimaOracle unitLstmOracle
     envNone none [(10 : Val)] 3 60 (by decide) (by decide) (by decide)⟩

/-- C5 (counterexample): at horizon one the fallback forecast is the single
point [last close], so it does not end at 1.05 times the last close; and for a
negative last close the fallback is strictly decreasing, so the claimed
monotonicity also fails without a sign restriction. -/
theorem fallback_horizon_one_endpoint_cex :
    train_arima sqrtZero unitArimaOracle envNone [(100 : Val)] 1
      = .ok ([(100 : Val)], fallback_metrics, none)
    ∧ (100 : Val) ≠ 100 * (21/20)
    ∧ train_arima sqrtZero unitArimaOracle envNone [(-1 : Val)] 3
      = .ok (linspace (-1) ((-1) * (21/20)) 3, fallback_metrics, none)
    ∧ ¬ List.Chain' (fun x y => x ≤ y) (linspace (-1) ((-1) * (21/20)) 3) := by
  refine ⟨rfl, by norm_num, rfl, ?_⟩
  have hexp : linspace (-1) ((-1) * (21/20)) 3 = [-1, -41/40, -21/20] := by
    norm_num [linspace, List.range_succ]
  rw [hexp, List.chain'_cons]
  rintro ⟨h1, -⟩
  norm_num at h1

/-- C5 (amended): whenever a forecaster's try block raises, for every horizon
of at least two steps and a non-negative last observed close the returned
forecast is the straight-line interpolation from the last close to exactly
1.05 times it, monotonically non-decreasing, with all-zero metrics and a null
model handle. -/
theorem fallback_forecast_shape
    (sqrtFn : Val → Val) {MA ML : Type} (AO : ArimaOracle MA) (LO : LstmOracle ML)
    (env : Env) (st : Option ScalerState) (df : List Val) (fs lb : Nat)
    (lp : Val) (e₁ e₂ : String)
    (ha : train_arima_try sqrtFn AO env df fs = .error e₁)
    (hl : train_lstm_try sqrtFn LO env st df fs lb = .error e₂)
    (hlast : df.getLast? = some lp) (hlp : 0 ≤ lp) (hfs : 2 ≤ fs) :
    train_arima sqrtFn AO env df fs
      = .ok (linspace lp (lp * (21/20)) fs, fallback_metrics, none)
    ∧ train_lstm sqrtFn LO env st df fs lb
      = .ok (linspace lp (lp * (21/20)) fs, fallback_metrics, none)
    ∧ (linspace lp (lp * (21/20)) fs).length = fs
    ∧ (linspace lp (lp * (21/20)) fs).head? = some lp
    ∧ (linspace lp (lp * (21/20)) fs).getLast? = some (lp * (21/20))
    ∧ List.Chain' (fun x y => x ≤ y) (linspace lp (lp * (21/20)) fs) := by
  have hab : lp ≤ lp * (21/20) := by nlinarith
  refine ⟨?_, ?_, linspace_length _ _ _, linspace_head? _ _ _ (by omega),
    linspace_getLast? _ _ _ hfs, linspace_chain _ _ _ hab⟩
  · unfold train_arima
    rw [ha, hlast]
  · unfold train_lstm
    rw [hl, hlast]

/-- C5 (witness): both forecasters on a one-point series with no libraries
installed, horizon five. -/
theorem fallback_forecast_shape_witness :
    train_arima_try sqrtZero unitArimaOracle envNone [(10 : Val)] 5
      = .error "statsmodels not installed"
    ∧ train_lstm_try sqrtZero unitLstmOracle envNone none [(10 : Val)] 5 60
      = .error "TensorFlow not installed"
    ∧ [(10 : Val)].getLast? = some 10
    ∧ (0 : Val) ≤ 10
    ∧ 2 ≤ 5
    ∧ (train_arima sqrtZero unitArimaOracle envNone [(10 : Val)] 5
        = .ok (linspace 10 (10 * (21/20)) 5, fallback_metrics, none)
       ∧ train_lstm sqrtZero unitLstmOracle envNone none [(10 : Val)] 5 60
        = .ok (linspace 10 (10 * (21/20)) 5, fallback_metrics, none)
       ∧ (linspace (10 : Val) (10 * (21/20)) 5).length = 5
       ∧ (linspace (10 : Val) (10 * (21/20)) 5).head? = some 10
       ∧ (linspace (10 : Val) (10 * (21/20)) 5).getLast? = some (10 * (21/20))
       ∧ List.Chain' (fun x y => x ≤ y) (linspace (10 : Val) (10 * (21/20)) 5)) :=
  ⟨rfl, rfl, rfl, by norm_num, by norm_num,
   fallback_forecast_shape sqrtZero unitArimaOracle unitLstmOracle envNone none
     [(10 : Val)] 5 60 10 _ _ rfl rfl rfl (by norm_num) (by norm_num)⟩

/-- C6: `calculate_metrics` divides by the raw actual values with no zero
guard: for every equal-length input pair in which some actual value is zero,
the MAPE result is undefined (non-finite in numpy, `none` in the model). -/
theorem calculate_metrics_mape_undefined_on_zero_actual
    (sqrtFn : Val → Val) (actual predicted : List Val)
    (hlen : actual.length = predicted.length)
    (hz : ∃ x ∈ actual, x = 0) :
    (calculate_metrics sqrtFn actual predicted).mape = none := by
  obtain ⟨x, hx, rfl⟩ := hz
  obtain ⟨b, hb⟩ := exists_mem_zip_of_mem_left actual predicted hx (le_of_eq hlen)
  have hall : ((actual.zip predicted).map
      (fun ap => if ap.1 = 0 then none else some (|(ap.1 - ap.2) / ap.1|))).all
        Option.isSome = false := by
    rw [List.all_eq_false]
    exact ⟨none, List.mem_map.2 ⟨(0, b), hb, by simp⟩, by simp⟩
  simp only [calculate_metrics, hall]
  simp

/-- C6 (witness): actual [0, 1] against predicted [1, 1]. -/
theorem calculate_metrics_mape_undefined_on_zero_actual_witness :
    ([(0 : Val), 1].length = [(1 : Val), 1].length)
    ∧ (∃ x ∈ [(0 : Val), 1], x = 0)
    ∧ (calculate_metrics sqrtZero [(0 : Val), 1] [(1 : Val), 1]).mape = none :=
  ⟨rfl, ⟨0, by simp, rfl⟩,
   calculate_metrics_mape_undefined_on_zero_actual sqrtZero [(0 : Val), 1] [(1 : Val), 1]
     rfl ⟨0, by simp, rfl⟩⟩

/-- C7: for every series whose holdout slice is not longer than the lookback,
the sequence forecaster builds zero holdout windows, its try block raises, and
the call returns the straight-line fallback with all-zero metrics even when the
neural library is available. -/
theorem train_lstm_small_holdout_always_fallback
    (sqrtFn : Val → Val) {ML : Type} (LO : LstmOracle ML) (env : Env)
    (st : Option ScalerState) (df : List Val) (fs lb : Nat) (lp : Val)
    (hlstm : env.hasLSTM = true)
    (hlast : df.getLast? = some lp)
    (hsmall : df.length - 4 * df.length / 5 ≤ lb) :
    (prepare_lstm_data ((df.map (scaleVal (scalerFit df))).drop (4 * df.length / 5)) lb).1
      = []
    ∧ (∃ e, train_lstm_try sqrtFn LO env st df fs lb = .error e)
    ∧ train_lstm sqrtFn LO env st df fs lb
        = .ok (linspace lp (lp * (21/20)) fs, fallback_metrics, none) := by
  have hne : df ≠ [] := by
    intro hdf
    rw [hdf] at hlast
    exact Option.noConfusion hlast
  have hwin : (prepare_lstm_data
      ((df.map (scaleVal (scalerFit df))).drop (4 * df.length / 5)) lb).1 = [] := by
    unfold prepare_lstm_data
    simp only [List.length_drop, List.length_map]
    rw [show df.length - 4 * df.length / 5 - lb = 0 from by omega]
    rfl
  have herr : ∃ e, train_lstm_try sqrtFn LO env st df fs lb = .error e := by
    simp only [train_lstm_try, hlstm, if_neg hne, Bool.true_eq_false, if_false,
      List.length_map]
    by_cases htr : (prepare_lstm_data
        ((df.map (scaleVal (scalerFit df))).take (4 * df.length / 5 + lb)) lb).1 = []
    · rw [if_pos htr]
      exact ⟨_, rfl⟩
    · rw [if_neg htr, if_pos hwin]
      exact ⟨_, rfl⟩
  obtain ⟨e, he⟩ := herr
  refine ⟨hwin, ⟨e, he⟩, ?_⟩
  unfold train_lstm
  rw [he, hlast]

/-- C7 (witness): a ten-point series with lookback three (holdout slice of two
points), tensorflow available. -/
theorem train_lstm_small_holdout_always_fallback_witness :
    envAll.hasLSTM = true
    ∧ ([(1 : Val), 1, 1, 1, 1, 1, 1, 1, 1, 1].getLast? = some 1)
    ∧ ([(1 : Val), 1, 1, 1, 1, 1, 1, 1, 1, 1].length
        - 4 * [(1 : Val), 1, 1, 1, 1, 1, 1, 1, 1, 1].length / 5 ≤ 3)
    ∧ ((prepare_lstm_data
          (([(1 : Val), 1, 1, 1, 1, 1, 1, 1, 1, 1].map
              (scaleVal (scalerFit [(1 : Val), 1, 1, 1, 1, 1, 1, 1, 1, 1]))).drop
            (4 * [(1 : Val), 1, 1, 1, 1, 1, 1, 1, 1, 1].length / 5)) 3).1 = []
       ∧ (∃ e, train_lstm_try sqrtZero unitLstmOracle envAll none
            [(1 : Val), 1, 1, 1, 1, 1, 1, 1, 1, 1] 4 3 = .error e)
       ∧ train_lstm sqrtZero unitLstmOracle envAll none
            [(1 : Val), 1, 1, 1, 1, 1, 1, 1, 1, 1] 4 3
          = .ok (linspace 1 (1 * (21/20)) 4, fallback_metrics, none)) :=
  ⟨rfl, rfl, by decide,
   train_lstm_small_holdout_always_fallback sqrtZero unitLstmOracle envAll none
     [(1 : Val), 1, 1, 1, 1, 1, 1, 1, 1, 1] 4 3 1 rfl rfl (by decide)⟩

/-- C8 (counterexample): on a 31-point series of positive closes the 30-period
rolling volatility is still undefined at row index 29 (the 30th observation) —
because its window covers the daily-return column whose first entry is itself
undefined — and becomes defined only from index 30, refuting the claimed
"undefined for exactly the first 29 observations". -/
theorem volatility_defined_only_from_index_30_cex :
    29 < (volatility_30d sqrtZero (List.replicate 31 (1 : Val))).length
    ∧ definedAt (volatility_30d sqrtZero (List.replicate 31 (1 : Val))) 29 = false
    ∧ definedAt (volatility_30d sqrtZero (List.replicate 31 (1 : Val))) 30 = true :=
  ⟨by decide, by decide, by decide⟩

/-- C8 (amended): for positive closes, the daily return is undefined exactly at
the first observation, the 50-period moving average is undefined exactly at the
first 49 observations, but the 30-period rolling volatility is undefined for
the first 30 observations (one more than window-1, since its window is taken
over the derived return column whose first entry is undefined). -/
theorem derived_columns_definedness
    (sqrtFn : Val → Val) (cs : List Val) (hpos : ∀ c ∈ cs, 0 < c) (i : Nat) :
    (definedAt (daily_return cs) i = true ↔ 1 ≤ i ∧ i < cs.length)
    ∧ (definedAt (volatility_30d sqrtFn cs) i = true ↔ 30 ≤ i ∧ i < cs.length)
    ∧ (definedAt (ma_50 cs) i = true ↔ 49 ≤ i ∧ i < cs.length) := by
  refine ⟨definedAt_daily_return cs hpos i, ?_, ?_⟩
  · unfold volatility_30d
    rw [definedAt_rollingApply, daily_return_length]
    constructor
    · rintro ⟨hw, hi, hall⟩
      refine ⟨?_, hi⟩
      by_contra hlt
      push_neg at hlt
      have h0 := hall 0 (by omega)
      rw [definedAt_daily_return cs hpos] at h0
      omega
    · rintro ⟨h30, hi⟩
      refine ⟨by omega, hi, ?_⟩
      intro k hk
      rw [definedAt_daily_return cs hpos]
      omega
  · unfold ma_50
    rw [definedAt_rollingApply, List.length_map]
    constructor
    · rintro ⟨hw, hi, -⟩
      exact ⟨by omega, hi⟩
    · rintro ⟨h49, hi⟩
      refine ⟨by omega, hi, ?_⟩
      intro k hk
      rw [definedAt_map_some]
      omega

/-- C8 (witness): the amended definedness pattern evaluated on a three-point
positive series at index 1. -/
theorem derived_columns_definedness_witness :
    (∀ c ∈ [(1 : Val), 2, 3], 0 < c)
    ∧ ((definedAt (daily_return [(1 : Val), 2, 3]) 1 = true
          ↔ 1 ≤ 1 ∧ 1 < [(1 : Val), 2, 3].length)
       ∧ (definedAt (volatility_30d sqrtZero [(1 : Val), 2, 3]) 1 = true
          ↔ 30 ≤ 1 ∧ 1 < [(1 : Val), 2, 3].length)
       ∧ (definedAt (ma_50 [(1 : Val), 2, 3]) 1 = true
          ↔ 49 ≤ 1 ∧ 1 < [(1 : Val), 2, 3].length)) :=
  ⟨by norm_num,
   derived_columns_definedness sqrtZero [(1 : Val), 2, 3] (by norm_num) 1⟩

/-- The expected export dates for a series ending 2024-01-01: January 2nd
through 31st, 2024. -/
def jan2024Dates : List Date :=
  [⟨2024, 1, 2⟩, ⟨2024, 1, 3⟩, ⟨2024, 1, 4⟩, ⟨2024, 1, 5⟩, ⟨2024, 1, 6⟩,
   ⟨2024, 1, 7⟩, ⟨2024, 1, 8⟩, ⟨2024, 1, 9⟩, ⟨2024, 1, 10⟩, ⟨2024, 1, 11⟩,
   ⟨2024, 1, 12⟩, ⟨2024, 1, 13⟩, ⟨2024, 1, 14⟩, ⟨2024, 1, 15⟩, ⟨2024, 1, 16⟩,
   ⟨2024, 1, 17⟩, ⟨2024, 1, 18⟩, ⟨2024, 1, 19⟩, ⟨2024, 1, 20⟩, ⟨2024, 1, 21⟩,
   ⟨2024, 1, 22⟩, ⟨2024, 1, 23⟩, ⟨2024, 1, 24⟩, ⟨2024, 1, 25⟩, ⟨2024, 1, 26⟩,
   ⟨2024, 1, 27⟩, ⟨2024, 1, 28⟩, ⟨2024, 1, 29⟩, ⟨2024, 1, 30⟩, ⟨2024, 1, 31⟩]

/-- C9: the exported forecast CSV for horizon 30 has exactly 30 rows, one per
forecast day, with consecutive strictly-increasing dates starting the day after
the series' last observed date; a series whose last date is 2024-01-01 yields
dates 2024-01-02 through 2024-01-31 inclusive. -/
theorem download_forecast_dates_consecutive
    (sqrtFn : Val → Val) {MA ML : Type} (AO : ArimaOracle MA) (LO : LstmOracle ML)
    (env : Env) (st : Option ScalerState) (all_data : List (String × PriceFrame))
    (asset : String) (df : PriceFrame) (L : Date)
    (hget : all_data.lookup asset = some df)
    (hne : df.closes ≠ [])
    (hlast : df.dates.getLast? = some L) :
    ∃ rows : List (Date × Val × Val),
      download_forecast sqrtFn AO LO env st all_data asset = .ok rows
      ∧ rows.length = 30
      ∧ rows.map Prod.fst = date_range (nextDay L) 30
      ∧ (rows.map Prod.fst).head? = some (nextDay L)
      ∧ List.Chain' (fun a b => b = nextDay a) (rows.map Prod.fst)
      ∧ (L = ⟨2024, 1, 1⟩ → rows.map Prod.fst = jan2024Dates) := by
  obtain ⟨b, hb, halen, hllen⟩ :=
    train_and_forecast_ok_of_ne_nil sqrtFn AO LO env st asset 30 hne
  have hdates : (date_range L 31).drop 1 = date_range (nextDay L) 30 :=
    date_range_drop_one L 30
  have hdlen : ((date_range L 31).drop 1).length = 30 := by
    rw [hdates, date_range_length]
  have hzlen : (b.arima_forecast.zip b.lstm_forecast).length = 30 := by
    rw [List.length_zip, halen, hllen]
    exact min_self 30
  have hmap : (((date_range L 31).drop 1).zip
      (b.arima_forecast.zip b.lstm_forecast)).map Prod.fst
        = date_range (nextDay L) 30 := by
    rw [List.map_fst_zip _ _ (by rw [hdlen, hzlen]), hdates]
  refine ⟨((date_range L 31).drop 1).zip (b.arima_forecast.zip b.lstm_forecast),
    ?_, ?_, hmap, ?_, ?_, ?_⟩
  · simp only [download_forecast, hget, hb, hlast]
  · rw [List.length_zip, hdlen, hzlen]
    exact min_self 30
  · rw [hmap, date_range_head? _ _ (by omega)]
  · rw [hmap]
    exact date_range_chain (nextDay L) 30
  · intro hL
    rw [hmap, hL]
    decide

/-- C9 (witness): a one-row frame ending 2024-01-01 with no libraries present;
the export produces the thirty January dates. -/
theorem download_forecast_dates_consecutive_witness :
    ([("BTC", (⟨[⟨2024, 1, 1⟩], [(10 : Val)]⟩ : PriceFrame))].lookup "BTC"
        = some (⟨[⟨2024, 1, 1⟩], [(10 : Val)]⟩ : PriceFrame))
    ∧ ((⟨[⟨2024, 1, 1⟩], [(10 : Val)]⟩ : PriceFrame).closes ≠ [])
    ∧ ((⟨[⟨2024, 1, 1⟩], [(10 : Val)]⟩ : PriceFrame).dates.getLast?
        = some ⟨2024, 1, 1⟩)
    ∧ (∃ rows : List (Date × Val × Val),
        download_forecast sqrtZero unitArimaOracle unitLstmOracle envNone none
            [("BTC", (⟨[⟨2024, 1, 1⟩], [(10 : Val)]⟩ : PriceFrame))] "BTC" = .ok rows
        ∧ rows.length = 30
        ∧ rows.map Prod.fst = date_range (nextDay ⟨2024, 1, 1⟩) 30
        ∧ (rows.map Prod.fst).head? = some (nextDay ⟨2024, 1, 1⟩)
        ∧ List.Chain' (fun a b => b = nextDay a) (rows.map Prod.fst)
        ∧ ((⟨2024, 1, 1⟩ : Date) = ⟨2024, 1, 1⟩ → rows.map Prod.fst = jan2024Dates)) :=
  ⟨rfl, by decide, rfl,
   download_forecast_dates_consecutive sqrtZero unitArimaOracle unitLstmOracle envNone
     none [("BTC", (⟨[⟨2024, 1, 1⟩], [(10 : Val)]⟩ : PriceFrame))] "BTC"
     (⟨[⟨2024, 1, 1⟩], [(10 : Val)]⟩ : PriceFrame) ⟨2024, 1, 1⟩ rfl (by decide) rfl⟩

/-- C10: the sequence forecaster refits the min-max scaler on the current
series before any transform, so its result is independent of the scaler state
left behind by earlier calls: running with any two incoming scaler states —
in particular after an arbitrary prior call versus on a fresh trainer — gives
identical results. -/
theorem train_lstm_independent_of_scaler_state
    (sqrtFn : Val → Val) {ML : Type} (LO : LstmOracle ML) (env env' : Env)
    (st₁ st₂ st' : Option ScalerState) (df df' : List Val) (fs lb : Nat) :
    train_lstm sqrtFn LO env st₁ df fs lb = train_lstm sqrtFn LO env st₂ df fs lb
    ∧ train_lstm sqrtFn LO env (lstm_scaler_after env' st' df') df fs lb
        = train_lstm sqrtFn LO env none df fs lb :=
  ⟨rfl, rfl⟩


end Forecast

